import Mathlib

/-!
Verification of the scheduling, resource-state and memory-persistence core of
the digital-being runtime.  The definitions below are a shallow embedding of
the Python sources:

  * `framework/memory.py`    — `Memory` (short-term ring, long-term store,
    chat log, durable persistence, corrupted-file recovery);
  * `framework/state.py`     — `State` (energy consumption and tick recovery);
  * `framework/activity_selector.py` — `ActivitySelector` (cooldown and
    enabled-flag filtering, energy gating, weighted random selection,
    next-available diagnostics);
  * `framework/main.py`      — `DigitalBeing.execute_activity` (fault
    containment at the activity boundary).

Machine reals (Python floats) are modelled as rationals; wall-clock instants
are rationals measured in seconds; Python dictionaries that keep insertion
order are modelled as association lists; a fallible path is modelled by an
explicit outcome constructor.
-/

/-- A JSON-serializable Python value (the payloads stored in memory files). -/
inductive Json where
  | null
  | bool (b : Bool)
  | num (q : ℚ)
  | str (s : String)
  | arr (xs : List Json)
  | obj (fields : List (String × Json))
deriving Repr

/-- Python truthiness of a JSON value (`if value:`). -/
def jsonTruthy : Json → Bool
  | Json.null => false
  | Json.bool b => b
  | Json.num q => decide (q ≠ 0)
  | Json.str s => decide (s ≠ "")
  | Json.arr xs => !xs.isEmpty
  | Json.obj fs => !fs.isEmpty

/-- Whether a JSON value is an object (`isinstance(data, dict)`). -/
def jsonIsObj : Json → Bool
  | Json.obj _ => true
  | _ => false

/-- `d.get(k, dflt)` on an insertion-ordered dictionary. -/
def alistGetD {β : Type} : List (String × β) → String → β → β
  | [], _, dflt => dflt
  | (k2, v) :: rest, k, dflt => if k2 = k then v else alistGetD rest k dflt

/-- `k in d` on an insertion-ordered dictionary. -/
def alistContains {β : Type} : List (String × β) → String → Bool
  | [], _ => false
  | (k2, _) :: rest, k => k2 = k || alistContains rest k

/-- In-place update of the entry holding key `k` (position preserved). -/
def alistUpdate {β : Type} : List (String × β) → String → (β → β) → List (String × β)
  | [], _, _ => []
  | (k2, v) :: rest, k, f =>
    if k2 = k then (k2, f v) :: rest else (k2, v) :: alistUpdate rest k f

/-- One record of the short-term ring / long-term store, as built by
`Memory.store_activity_result` (`memory_entry = {...}`). -/
structure MemoryEntry where
  timestamp : String
  activity_type : String
  success : Bool
  error : Option String
  data : Option Json
  metadata : Json
deriving Repr

/-- One record of the dedicated chat log (`chat_entry = {...}`).  Sender and
message are whatever JSON values `chat_data.get` returns. -/
structure ChatEntry where
  timestamp : String
  sender : Json
  message : Json
  activity_type : String
deriving Repr

/-- The mutable fields of `Memory`: `short_term_memory`, `long_term_memory`
(a dict from activity type to entry list) and `chat_log`. -/
structure MemoryState where
  short_term_memory : List MemoryEntry := []
  long_term_memory : List (String × List MemoryEntry) := []
  chat_log : List ChatEntry := []
deriving Repr

/-- The `"result"` value of an activity record when it is a dict.  Field
defaults mirror the `.get` defaults in `store_activity_result`:
`success` ← `result.get("success", False)`, `error` ← `result.get("error")`,
`data` ← `result.get("data")`, `metadata` ← `result.get("metadata", {})`. -/
structure ResultDict where
  success : Bool := false
  error : Option String := none
  data : Option Json := none
  metadata : Json := Json.obj []
deriving Repr

/-- The `"result"` field of an activity record: a dict or some other value. -/
inductive PyResult where
  | dict (res : ResultDict)
  | nonDict
deriving Repr

/-- An activity record when it is a dict.  `result` is the `"result"` key
(absent ⇒ `.get` default `{}`), `activity_type` the `"activity_type"` key
(absent ⇒ `.get` default `"Unknown"`). -/
structure RecordDict where
  result : Option PyResult := none
  activity_type : Option String := none
deriving Repr

/-- The argument of `store_activity_result`: a dict or some other value. -/
inductive PyVal where
  | dict (r : RecordDict)
  | nonDict
deriving Repr

/-- `activity_type in ["UserChatMessage", "ReplyToChatActivity"]`. -/
def chatTypes (aty : String) : Bool :=
  decide (aty = "UserChatMessage") || decide (aty = "ReplyToChatActivity")

/-- Truthiness of `result.get("data")` (`None` when the key is absent). -/
def dataTruthy : Option Json → Bool
  | none => false
  | some j => jsonTruthy j

/-- Whether the chat-log branch of `store_activity_result` raises: the branch
runs `chat_data.get(...)`, which raises `AttributeError` when the truthy
`data` value is not a dict (the outer `except` then swallows the error and
the call leaves the memory unchanged). -/
def chatRaise (aty : String) (res : ResultDict) : Bool :=
  chatTypes aty && dataTruthy res.data &&
    (match res.data with
     | some (Json.obj _) => false
     | _ => true)

/-- The memory entry that `store_activity_result` builds from a valid record
(`timestamp` is the fresh UTC timestamp taken inside the call). -/
def mkMemoryEntry (now : String) (r : RecordDict) (res : ResultDict) : MemoryEntry :=
  { timestamp := now
    activity_type := r.activity_type.getD "Unknown"
    success := res.success
    error := res.error
    data := res.data
    metadata := res.metadata }

/-- `if activity_type not in long_term: long_term[activity_type] = []` followed
by `long_term[activity_type].append(memory)`. -/
def ltAppend (lt : List (String × List MemoryEntry)) (k : String) (m : MemoryEntry) :
    List (String × List MemoryEntry) :=
  if alistContains lt k then alistUpdate lt k (fun l => l ++ [m]) else lt ++ [(k, [m])]

/-- `Memory._consolidate_memory`: when the ring holds more than 100 entries,
`short_term_memory[:-50]` moves to the long-term store grouped by
`activity_type` and `short_term_memory[-50:]` stays. -/
def consolidateMemory (st : List MemoryEntry) (lt : List (String × List MemoryEntry)) :
    List MemoryEntry × List (String × List MemoryEntry) :=
  if 100 < st.length then
    let older := st.take (st.length - 50)
    let newer := st.drop (st.length - 50)
    (newer, older.foldl (fun acc m => ltAppend acc m.activity_type m) lt)
  else (st, lt)

/-- Tail of `store_activity_result` once the record passed validation: append
the entry to the ring, consolidate, persist. -/
def commitEntry (now aty : String) (res : ResultDict) (m : MemoryState) : MemoryState :=
  let entry : MemoryEntry :=
    { timestamp := now, activity_type := aty, success := res.success,
      error := res.error, data := res.data, metadata := res.metadata }
  let p := consolidateMemory (m.short_term_memory ++ [entry]) m.long_term_memory
  { m with short_term_memory := p.1, long_term_memory := p.2 }

/-- `Memory.store_activity_result(activity_record)` at timestamp `now`.
A non-dict record or a non-dict `"result"` value returns with no change; a
chat-typed record with truthy dict data first appends a chat entry; a
chat-typed record with truthy non-dict data raises inside the `try` and the
outer `except` leaves the state unchanged. -/
def storeActivityResult (now : String) (record : PyVal) (m : MemoryState) : MemoryState :=
  match record with
  | PyVal.nonDict => m
  | PyVal.dict r =>
    match r.result.getD (PyResult.dict {}) with
    | PyResult.nonDict => m
    | PyResult.dict res =>
      let aty := r.activity_type.getD "Unknown"
      if chatTypes aty && dataTruthy res.data then
        match res.data with
        | some (Json.obj fields) =>
          let m1 :=
            { m with chat_log := m.chat_log ++
                [{ timestamp := now
                   sender := alistGetD fields "sender" (Json.str "unknown")
                   message := alistGetD fields "message" (Json.str "")
                   activity_type := "chat_message" }] }
          commitEntry now aty res m1
        | _ => m
      else commitEntry now aty res m

/-- Python's `l[-k:]` for a non-negative `k`: the last `k` elements, except
that `k = 0` gives `l[0:] = l` because `-0 == 0`. -/
def pySliceLast {α : Type} (l : List α) (k : ℕ) : List α :=
  if k = 0 then l else l.drop (l.length - k)

/-- `Memory.get_chat_history(limit)`: `self.chat_log[-limit:]`. -/
def getChatHistory (chatLog : List ChatEntry) (limit : ℕ) : List ChatEntry :=
  pySliceLast chatLog limit

/-- What `_load_memory` finds on disk: no file, an unreadable file (`open`
raises), a file that is not valid JSON (`json.load` raises
`JSONDecodeError`), or a parsed JSON value. -/
inductive FileContent where
  | absent
  | unreadable
  | unparseable
  | parsed (j : Json)
deriving Repr

/-- The observable outcome of `Memory._load_memory`: the three loaded fields
(raw JSON, exactly as Python assigns `data.get(...)` results), whether the
original file was renamed to the `.json.bak` backup, and whether a fresh
file was written by `persist()` during loading. -/
structure LoadResult where
  short_term : Json
  long_term : Json
  chat_log : Json
  backedUp : Bool
  rewrote : Bool
deriving Repr

/-- `Memory._load_memory` as a total function of the file content.  It never
propagates an exception: every fallible path is caught inside the method. -/
def loadMemory (fc : FileContent) : LoadResult :=
  match fc with
  | FileContent.absent =>
    { short_term := Json.arr [], long_term := Json.obj [], chat_log := Json.arr [],
      backedUp := false, rewrote := false }
  | FileContent.unreadable =>
    { short_term := Json.arr [], long_term := Json.obj [], chat_log := Json.arr [],
      backedUp := false, rewrote := false }
  | FileContent.unparseable =>
    { short_term := Json.arr [], long_term := Json.obj [], chat_log := Json.arr [],
      backedUp := true, rewrote := true }
  | FileContent.parsed j =>
    match j with
    | Json.obj fields =>
      { short_term := alistGetD fields "short_term" (Json.arr [])
        long_term := alistGetD fields "long_term" (Json.obj [])
        chat_log := alistGetD fields "chat_log" (Json.arr [])
        backedUp := false, rewrote := false }
    | _ =>
      { short_term := Json.arr [], long_term := Json.obj [], chat_log := Json.arr [],
        backedUp := false, rewrote := true }

/-- The JSON object that `Memory.persist` writes (`memory_data = {...}`,
insertion order `short_term`, `long_term`, `chat_log`). -/
def persistData (st lt cl : Json) : Json :=
  Json.obj [("short_term", st), ("long_term", lt), ("chat_log", cl)]

/-- The per-class attributes the selector reads: `__name__`, the
decorator-set `cooldown` (default 0) and `energy_cost` (default 0.2),
already resolved as `getattr` does. -/
structure ActivityDesc where
  name : String
  cooldown : ℚ
  energy_cost : ℚ
deriving Repr, DecidableEq

/-- The data `ActivitySelector` consults: the loader's activities in
insertion order, `constraints["activities_config"]` reduced to the
per-class-name `enabled` value (`none` when the class or the key is absent),
`last_activity_times`, and the state's current energy. -/
structure Selector where
  activities : List ActivityDesc
  activitiesConfig : String → Option Bool
  lastActivityTimes : String → Option ℚ
  energy : ℚ

/-- The disabled test of `_get_available_activities`: skip when the config
holds the class name and its `enabled` value is `False`. -/
def isDisabled (cfg : String → Option Bool) (name : String) : Bool :=
  match cfg name with
  | some enabled => !enabled
  | none => false

/-- The cooldown test of `_get_available_activities`: on cooldown when a last
time is recorded and `(now - last).total_seconds() < cooldown`. -/
def onCooldown (lastTime : Option ℚ) (cooldown now : ℚ) : Bool :=
  match lastTime with
  | some t0 => decide (now - t0 < cooldown)
  | none => false

/-- `ActivitySelector._get_available_activities`: enabled and not on
cooldown (instantiation is modelled as always succeeding). -/
def getAvailableActivities (s : Selector) (now : ℚ) : List ActivityDesc :=
  s.activities.filter (fun a =>
    !isDisabled s.activitiesConfig a.name &&
    !onCooldown (s.lastActivityTimes a.name) a.cooldown now)

/-- `ActivitySelector._check_energy_requirements`:
`current_energy >= required_energy`. -/
def checkEnergyRequirements (energy : ℚ) (a : ActivityDesc) : Bool :=
  decide (energy ≥ a.energy_cost)

/-- `ActivitySelector._check_activity_requirements`: currently accepts all. -/
def checkActivityRequirements (_name : String) : Bool := true

/-- Step 2 of `select_next_activity`: the available activities that also pass
the energy and requirement checks. -/
def suitableActivities (s : Selector) (now : ℚ) : List ActivityDesc :=
  (getAvailableActivities s now).filter
    (fun a => checkEnergyRequirements s.energy a && checkActivityRequirements a.name)

/-- `ActivitySelector.select_next_activity`.  `random.choices` draws a member
of the suitable list (all weights are at least 1, hence positive); the draw
is modelled by an arbitrary index `r`, reduced modulo the list length, so
every possible outcome of the weighted draw is covered.  An empty suitable
list yields `none`, as both early returns do. -/
def selectNextActivity (s : Selector) (now : ℚ) (r : ℕ) : Option ActivityDesc :=
  let suitable := suitableActivities s now
  suitable[r % suitable.length]?

/-- One row of `get_next_available_times`.  `next_available_at` is the
computed instant, `none` standing for the literal string `"Now"` of the
never-run branch. -/
structure NextAvailEntry where
  activity : String
  available_in_seconds : ℚ
  next_available_at : Option ℚ
  cooldown_period : ℚ
deriving Repr, DecidableEq

/-- The row `get_next_available_times` builds for one activity class. -/
def nextAvailEntryFor (s : Selector) (now : ℚ) (a : ActivityDesc) : NextAvailEntry :=
  match s.lastActivityTimes a.name with
  | some lastTime =>
    let timeRemaining := max 0 (a.cooldown - (now - lastTime))
    { activity := a.name, available_in_seconds := timeRemaining,
      next_available_at := some (now + timeRemaining), cooldown_period := a.cooldown }
  | none =>
    { activity := a.name, available_in_seconds := 0,
      next_available_at := none, cooldown_period := a.cooldown }

/-- Stable insertion of `x` before the first element it is `le`-related to. -/
def insertByKey {α : Type} (le : α → α → Bool) (x : α) : List α → List α
  | [] => [x]
  | y :: ys => if le x y then x :: y :: ys else y :: insertByKey le x ys

/-- A stable sort (Python's `sorted` is stable; any stable sort computes the
same list, so insertion sort is a faithful model). -/
def sortByKey {α : Type} (le : α → α → Bool) (l : List α) : List α :=
  l.foldr (insertByKey le) []

/-- `ActivitySelector.get_next_available_times`: one row per loaded activity
class — the enabled flag is never consulted here — sorted by
`available_in_seconds`. -/
def getNextAvailableTimes (s : Selector) (now : ℚ) : List NextAvailEntry :=
  sortByKey (fun x y => decide (x.available_in_seconds ≤ y.available_in_seconds))
    (s.activities.map (nextAvailEntryFor s now))

/-- `State.consume_energy(amount)`:
`energy = max(0.0, energy - amount)`. -/
def consumeEnergy (e amount : ℚ) : ℚ := max 0 (e - amount)

/-- The energy-recovery line of `State.update` when a last-activity timestamp
is recorded: `energy = min(1.0, energy + (time_diff / 3600) * 0.1)`. -/
def tickRecover (e timeDiff : ℚ) : ℚ := min 1 (e + timeDiff / 3600 * (1 / 10))

/-- One call touching the energy field: `consume_energy(amount)`, `update()`
with a recorded timestamp and elapsed seconds `timeDiff`, or `update()` with
no recorded timestamp (which leaves the energy unchanged). -/
inductive StateOp where
  | consume (amount : ℚ)
  | tick (timeDiff : ℚ)
  | tickIdle
deriving Repr

/-- The effect of one call on the energy field. -/
def applyStateOp (e : ℚ) : StateOp → ℚ
  | StateOp.consume amount => consumeEnergy e amount
  | StateOp.tick timeDiff => tickRecover e timeDiff
  | StateOp.tickIdle => e

/-- The side condition of the claim: consumed amounts are non-negative and
elapsed times since the last activity are non-negative. -/
def validStateOp : StateOp → Prop
  | StateOp.consume amount => 0 ≤ amount
  | StateOp.tick timeDiff => 0 ≤ timeDiff
  | StateOp.tickIdle => True

/-- The energy after a finite sequence of calls. -/
def runStateOps (e : ℚ) : List StateOp → ℚ
  | [] => e
  | op :: rest => runStateOps (applyStateOp e op) rest

/-- `ActivityResult` as constructed (the constructor already replaced a falsy
`metadata` by `{}`). -/
structure ActivityResult where
  success : Bool
  data : Option Json := none
  error : Option String := none
  metadata : Json := Json.obj []
deriving Repr

/-- The `"data"` field of `ActivityResult.to_dict`: `{}` unless `self.data`
is truthy, in which case the JSON value round-trips to itself. -/
def toDictData : Option Json → Json
  | none => Json.obj []
  | some j => if jsonTruthy j then j else Json.obj []

/-- `ActivityResult.to_dict`, restricted to the keys that
`store_activity_result` reads back (the extra `timestamp` key is ignored
there). -/
def resultToDict (r : ActivityResult) : ResultDict :=
  { success := r.success, error := r.error,
    data := some (toDictData r.data), metadata := r.metadata }

/-- What `await activity.execute(...)` does: return an `ActivityResult`,
return some other value, or raise an exception carrying message `msg`. -/
inductive ExecOutcome where
  | ok (r : ActivityResult)
  | other (v : Json)
  | raised (msg : String)

/-- `DigitalBeing.execute_activity` for an activity whose class name is
`name`, at timestamp `now`: coerce a non-`ActivityResult` return value,
store the record, and convert a raised exception into
`ActivityResult(success=False, error=str(e))` stored the same way.  The
function is total: no outcome propagates an exception. -/
def executeActivity (now name : String) (outcome : ExecOutcome) (m : MemoryState) :
    ActivityResult × MemoryState :=
  match outcome with
  | ExecOutcome.ok r =>
    (r, storeActivityResult now
      (PyVal.dict { activity_type := some name,
                    result := some (PyResult.dict (resultToDict r)) }) m)
  | ExecOutcome.other v =>
    let r : ActivityResult :=
      if jsonTruthy v then { success := true, data := some v }
      else { success := false, error := some "Invalid result type" }
    (r, storeActivityResult now
      (PyVal.dict { activity_type := some name,
                    result := some (PyResult.dict (resultToDict r)) }) m)
  | ExecOutcome.raised msg =>
    let r : ActivityResult := { success := false, error := some msg }
    (r, storeActivityResult now
      (PyVal.dict { activity_type := some name,
                    result := some (PyResult.dict (resultToDict r)) }) m)

/-- Scenario descriptor A: cooldown 0, never run, enabled. -/
def descA : ActivityDesc := { name := "A", cooldown := 0, energy_cost := 0 }

/-- Scenario descriptor B: cooldown 100 s, last selected 50 s ago. -/
def descB : ActivityDesc := { name := "B", cooldown := 100, energy_cost := 0 }

/-- Scenario descriptor C: cooldown 0, disabled in the configuration. -/
def descC : ActivityDesc := { name := "C", cooldown := 0, energy_cost := 0 }

/-- The three-activity example scenario at `now = 50`: B was last selected at
time 0, C is disabled, energy is 1.0. -/
def scenarioSelector : Selector :=
  { activities := [descA, descB, descC]
    activitiesConfig := fun n => if n = "C" then some false else none
    lastActivityTimes := fun n => if n = "B" then some 0 else none
    energy := 1 }

/-- A sample ring entry of activity type `"T"`, for concrete instances. -/
def entryT : MemoryEntry :=
  { timestamp := "t0", activity_type := "T", success := true,
    error := none, data := none, metadata := Json.obj [] }

/-- A memory whose short-term ring already holds 100 entries of type `"T"`. -/
def memFull : MemoryState :=
  { short_term_memory := List.replicate 100 entryT }

/-- A valid activity record of type `"T"` whose result dict is `resultT`. -/
def recordT : RecordDict :=
  { result := some (PyResult.dict { success := true }), activity_type := some "T" }

/-- The result dict carried by `recordT`. -/
def resultT : ResultDict := { success := true }

/-- A sample chat entry, for concrete instances. -/
def chatSample : ChatEntry :=
  { timestamp := "t1", sender := Json.str "user", message := Json.str "hi",
    activity_type := "chat_message" }

/-- A one-activity selector: activity `"A"` with cooldown 1 s and zero energy
cost, last selected at time 0. -/
def soloDesc : ActivityDesc := { name := "A", cooldown := 1, energy_cost := 0 }

/-- The selector holding only `soloDesc`, queried below at `now = 5`, when
the cooldown has already elapsed. -/
def soloSelector : Selector :=
  { activities := [soloDesc]
    activitiesConfig := fun _ => none
    lastActivityTimes := fun n => if n = "A" then some 0 else none
    energy := 1 }

/-- The diagnostic row computed for A in the example scenario. -/
def entryResA : NextAvailEntry :=
  { activity := "A", available_in_seconds := 0, next_available_at := none,
    cooldown_period := 0 }

/-- The diagnostic row computed for B in the example scenario. -/
def entryResB : NextAvailEntry :=
  { activity := "B", available_in_seconds := 50, next_available_at := some 100,
    cooldown_period := 100 }

/-- The diagnostic row computed for C in the example scenario. -/
def entryResC : NextAvailEntry :=
  { activity := "C", available_in_seconds := 0, next_available_at := none,
    cooldown_period := 0 }

/-! ### Association-list lemmas -/

theorem alistGetD_not_contains {β : Type} (l : List (String × β)) (k : String) (d : β)
    (h : alistContains l k = false) : alistGetD l k d = d := by
  induction l with
  | nil => rfl
  | cons hd tl ih =>
    obtain ⟨k2, v⟩ := hd
    simp [alistContains, Bool.or_eq_false_iff] at h
    simp [alistGetD, h.1, ih h.2]

theorem alistGetD_append {β : Type} (l1 l2 : List (String × β)) (k : String) (d : β) :
    alistGetD (l1 ++ l2) k d =
      if alistContains l1 k then alistGetD l1 k d else alistGetD l2 k d := by
  induction l1 with
  | nil => simp [alistGetD, alistContains]
  | cons hd tl ih =>
    obtain ⟨k2, v⟩ := hd
    by_cases hk : k2 = k
    · simp [alistGetD, alistContains, hk]
    · simp [alistGetD, alistContains, hk, ih]

theorem alistGetD_update_self {β : Type} (l : List (String × β)) (k : String)
    (f : β → β) (d : β) (h : alistContains l k = true) :
    alistGetD (alistUpdate l k f) k d = f (alistGetD l k d) := by
  induction l with
  | nil => simp [alistContains] at h
  | cons hd tl ih =>
    obtain ⟨k2, v⟩ := hd
    by_cases hk : k2 = k
    · simp [alistUpdate, alistGetD, hk]
    · simp [alistContains, hk] at h
      simp [alistUpdate, alistGetD, hk, ih h]

theorem alistGetD_update_other {β : Type} (l : List (String × β)) (k k2 : String)
    (f : β → β) (d : β) (h : k2 ≠ k) :
    alistGetD (alistUpdate l k f) k2 d = alistGetD l k2 d := by
  induction l with
  | nil => rfl
  | cons hd tl ih =>
    obtain ⟨kh, v⟩ := hd
    by_cases hk : kh = k
    · subst hk
      have hne : ¬ kh = k2 := fun hc => h (hc.symm)
      simp [alistUpdate, alistGetD, hne]
    · by_cases hk2 : kh = k2
      · simp [alistUpdate, alistGetD, hk, hk2, h]
      · simp [alistUpdate, alistGetD, hk, hk2, ih]

theorem ltAppend_getD (lt : List (String × List MemoryEntry)) (k k2 : String)
    (m : MemoryEntry) :
    alistGetD (ltAppend lt k m) k2 [] =
      if k2 = k then alistGetD lt k2 [] ++ [m] else alistGetD lt k2 [] := by
  cases hc : alistContains lt k with
  | true =>
    by_cases hk : k2 = k
    · subst hk
      simp [ltAppend, hc, alistGetD_update_self lt k2 _ _ hc]
    · simp [ltAppend, hc, hk, alistGetD_update_other lt k k2 _ _ hk]
  | false =>
    by_cases hk : k2 = k
    · subst hk
      simp [ltAppend, hc, alistGetD_append, alistGetD,
        alistGetD_not_contains lt k2 _ hc]
    · have hkk : ¬ k = k2 := fun hc2 => hk (hc2.symm)
      cases h2 : alistContains lt k2 with
      | true =>
        simp [ltAppend, hc, alistGetD_append, alistGetD, hk, hkk, h2]
      | false =>
        simp [ltAppend, hc, alistGetD_append, alistGetD, hk, hkk, h2,
          alistGetD_not_contains lt k2 _ h2]

theorem ltFold_getD (older : List MemoryEntry) (lt : List (String × List MemoryEntry))
    (k : String) :
    alistGetD (older.foldl (fun acc m => ltAppend acc m.activity_type m) lt) k [] =
      alistGetD lt k [] ++ older.filter (fun e => e.activity_type = k) := by
  induction older generalizing lt with
  | nil => simp [List.filter]
  | cons m rest ih =>
    rw [List.foldl_cons, ih, ltAppend_getD]
    by_cases h : m.activity_type = k
    · simp [List.filter, h]
    · have hkk : ¬ k = m.activity_type := fun hc => h (hc.symm)
      simp [List.filter, h, hkk]

/-! ### Consolidation lemmas -/

theorem consolidateMemory_spec (st : List MemoryEntry)
    (lt : List (String × List MemoryEntry)) (h : 100 < st.length) :
    (consolidateMemory st lt).1 = st.drop (st.length - 50) ∧
    ∀ k, alistGetD (consolidateMemory st lt).2 k [] =
      alistGetD lt k [] ++
        (st.take (st.length - 50)).filter (fun e => e.activity_type = k) := by
  constructor
  · simp [consolidateMemory, h]
  · intro k
    simp [consolidateMemory, h, ltFold_getD]

theorem consolidateMemory_getLast (st : List MemoryEntry) (e : MemoryEntry)
    (lt : List (String × List MemoryEntry)) :
    (consolidateMemory (st ++ [e]) lt).1.getLast? = some e := by
  by_cases h : 100 < (st ++ [e]).length
  · have hlen : (st ++ [e]).length = st.length + 1 := by simp
    have hk : (st ++ [e]).length - 50 ≤ st.length := by omega
    simp only [consolidateMemory, h, if_pos]
    rw [List.drop_append_of_le_length hk]
    exact List.getLast?_concat _
  · simp only [consolidateMemory, h, if_neg, if_false]
    exact List.getLast?_concat _

/-- When the record is a dict whose `"result"` value is a dict and the chat
branch does not raise, `store_activity_result` appends the built entry to the
ring and consolidates; the chat branch touches only the chat log. -/
theorem storeActivityResult_commit (now : String) (r : RecordDict) (res : ResultDict)
    (m : MemoryState)
    (hres : r.result.getD (PyResult.dict {}) = PyResult.dict res)
    (hraise : chatRaise (r.activity_type.getD "Unknown") res = false) :
    ∃ m1 : MemoryState,
      m1.short_term_memory = m.short_term_memory ∧
      m1.long_term_memory = m.long_term_memory ∧
      storeActivityResult now (PyVal.dict r) m =
        commitEntry now (r.activity_type.getD "Unknown") res m1 := by
  simp only [storeActivityResult, hres]
  by_cases hc : (chatTypes (r.activity_type.getD "Unknown") && dataTruthy res.data) = true
  · rw [if_pos hc]
    match hdata : res.data with
    | some (Json.obj fields) =>
      exact ⟨{ short_term_memory := m.short_term_memory
               long_term_memory := m.long_term_memory
               chat_log := m.chat_log ++
                 [{ timestamp := now
                    sender := alistGetD fields "sender" (Json.str "unknown")
                    message := alistGetD fields "message" (Json.str "")
                    activity_type := "chat_message" }] },
             rfl, rfl, rfl⟩
    | some Json.null | some (Json.bool _) | some (Json.num _) | some (Json.str _)
    | some (Json.arr _) =>
      exfalso
      rw [hdata] at hc
      simp [chatRaise, hdata, hc] at hraise
    | none =>
      exfalso
      rw [hdata] at hc
      simp [dataTruthy] at hc
  · rw [if_neg hc]
    exact ⟨m, rfl, rfl, rfl⟩

/-! ### Claim theorems: memory subsystem -/

/-- C10: a call to `store_activity_result` whose argument is not a dict, or
whose `"result"` field is not a dict, returns without raising and leaves
`short_term_memory`, `long_term_memory` and `chat_log` unchanged. -/
theorem store_activity_result_invalid_input_unchanged (now : String) (record : PyVal)
    (m : MemoryState)
    (h : record = PyVal.nonDict ∨
      ∃ r, record = PyVal.dict r ∧ r.result = some PyResult.nonDict) :
    storeActivityResult now record m = m := by
  rcases h with h | ⟨r, hrec, hres⟩
  · subst h
    rfl
  · subst hrec
    simp [storeActivityResult, hres]

/-- C10 witness: the theorem applied to a concrete non-dict record. -/
theorem store_activity_result_invalid_input_unchanged_witness :
    storeActivityResult "t" PyVal.nonDict {} = ({} : MemoryState) :=
  store_activity_result_invalid_input_unchanged "t" PyVal.nonDict {} (Or.inl rfl)

/-- C4 counterexample: a durable file holding the well-formed JSON value `[]`
(not an object) is invalid content in the claim's sense, yet `_load_memory`
does not rename it to a `.bak` backup — it resets the structures and rewrites
the file in place.  The backup happens only on a JSON parse error. -/
theorem load_memory_nonobject_no_backup :
    ¬ ((loadMemory (FileContent.parsed (Json.arr []))).backedUp = true) := by
  simp [loadMemory]

/-- C4 (amended): for invalid durable content — unparseable JSON, an
unreadable file, or a parsed value that is not a JSON object —
`_load_memory` does not raise and leaves the three structures at their empty
defaults; the existing file is renamed to a `.bak` backup exactly in the
unparseable case. -/
theorem load_memory_invalid_recovers (fc : FileContent)
    (h : fc = FileContent.unparseable ∨ fc = FileContent.unreadable ∨
      ∃ j, fc = FileContent.parsed j ∧ jsonIsObj j = false) :
    (loadMemory fc).short_term = Json.arr [] ∧
    (loadMemory fc).long_term = Json.obj [] ∧
    (loadMemory fc).chat_log = Json.arr [] ∧
    ((loadMemory fc).backedUp = true ↔ fc = FileContent.unparseable) := by
  rcases h with h | h | ⟨j, hj, hobj⟩
  · subst h
    simp [loadMemory]
  · subst h
    simp [loadMemory]
  · subst hj
    cases j <;> simp_all [loadMemory, jsonIsObj]

/-- C4 witness: the amended theorem applied to unparseable content. -/
theorem load_memory_invalid_recovers_witness :
    (loadMemory FileContent.unparseable).short_term = Json.arr [] ∧
    (loadMemory FileContent.unparseable).long_term = Json.obj [] ∧
    (loadMemory FileContent.unparseable).chat_log = Json.arr [] ∧
    ((loadMemory FileContent.unparseable).backedUp = true ↔
      FileContent.unparseable = FileContent.unparseable) :=
  load_memory_invalid_recovers FileContent.unparseable (Or.inl rfl)

/-- C6: persisting any JSON-serializable memory state and reloading the
written `{short_term, long_term, chat_log}` object reproduces the three
structures exactly, with no backup and no rewrite. -/
theorem persist_load_roundtrip (st lt cl : Json) :
    loadMemory (FileContent.parsed (persistData st lt cl)) =
      { short_term := st, long_term := lt, chat_log := cl,
        backedUp := false, rewrote := false } := by
  rfl

/-- C9: for `limit ≥ 1`, `get_chat_history(limit)` returns the last
`min limit length` entries of the chat log in stored order (the suffix that
completes the remaining prefix); for `limit = 0` it returns the whole log,
because the slice `chat_log[-0:]` is the full list. -/
theorem get_chat_history_spec (chatLog : List ChatEntry) (limit : ℕ) :
    (1 ≤ limit →
      (getChatHistory chatLog limit).length = min limit chatLog.length ∧
      chatLog.take (chatLog.length - limit) ++ getChatHistory chatLog limit = chatLog) ∧
    getChatHistory chatLog 0 = chatLog := by
  constructor
  · intro hlim
    have hne : limit ≠ 0 := by omega
    constructor
    · simp [getChatHistory, pySliceLast, hne]
      omega
    · simp [getChatHistory, pySliceLast, hne, List.take_append_drop]
  · simp [getChatHistory, pySliceLast]

/-- C9 witness: the theorem applied to a two-entry log at limits 2 and 0. -/
theorem get_chat_history_spec_witness :
    (getChatHistory [chatSample, chatSample] 2).length =
      min 2 [chatSample, chatSample].length ∧
    getChatHistory [chatSample, chatSample] 0 = [chatSample, chatSample] :=
  ⟨((get_chat_history_spec [chatSample, chatSample] 2).1 (by omega)).1,
   (get_chat_history_spec [chatSample, chatSample] 0).2⟩

set_option maxRecDepth 4000 in
/-- C3 counterexample: starting from a ring of 100 entries of type `"T"`,
storing one more entry of type `"T"` moves 51 entries — all but the newest
50, i.e. `short_term_memory[:-50]` of the 101-entry ring — into the
long-term store, not exactly the oldest 50 of the claim. -/
theorem store_activity_result_moves_51 :
    (alistGetD (storeActivityResult "t1" (PyVal.dict recordT) memFull).long_term_memory
        "T" []).length = 51 ∧
    ¬ (alistGetD (storeActivityResult "t1" (PyVal.dict recordT) memFull).long_term_memory
        "T" []).length = 50 := by
  constructor
  · decide
  · decide

/-- C3 (amended): whenever the short-term ring exceeds 100 entries after
`store_activity_result` appends its entry, all but the newest 50 entries —
the oldest `length - 50` of the post-append ring — are moved into long-term
storage grouped by `activity_type` (appended to each group in ring order),
and the newest 50 stay in the ring. -/
theorem store_activity_result_consolidates (now : String) (r : RecordDict)
    (res : ResultDict) (m : MemoryState)
    (hres : r.result.getD (PyResult.dict {}) = PyResult.dict res)
    (hraise : chatRaise (r.activity_type.getD "Unknown") res = false)
    (hlen : 100 < m.short_term_memory.length + 1) :
    (storeActivityResult now (PyVal.dict r) m).short_term_memory =
      (m.short_term_memory ++ [mkMemoryEntry now r res]).drop
        (m.short_term_memory.length + 1 - 50) ∧
    ∀ k, alistGetD (storeActivityResult now (PyVal.dict r) m).long_term_memory k [] =
      alistGetD m.long_term_memory k [] ++
        ((m.short_term_memory ++ [mkMemoryEntry now r res]).take
          (m.short_term_memory.length + 1 - 50)).filter
          (fun e => e.activity_type = k) := by
  obtain ⟨m1, hshort, hlong, hstore⟩ := storeActivityResult_commit now r res m hres hraise
  rw [hstore]
  have hlen2 : 100 < (m1.short_term_memory ++ [mkMemoryEntry now r res]).length := by
    simp [hshort]
    omega
  have hspec := consolidateMemory_spec
    (m1.short_term_memory ++ [mkMemoryEntry now r res]) m1.long_term_memory hlen2
  have hlenapp : (m1.short_term_memory ++ [mkMemoryEntry now r res]).length =
      m.short_term_memory.length + 1 := by
    simp [hshort]
  constructor
  · have h1 : (commitEntry now (r.activity_type.getD "Unknown") res m1).short_term_memory
        = (consolidateMemory (m1.short_term_memory ++ [mkMemoryEntry now r res])
            m1.long_term_memory).1 := rfl
    rw [h1, hspec.1, hlenapp, hshort]
  · intro k
    have h2 : (commitEntry now (r.activity_type.getD "Unknown") res m1).long_term_memory
        = (consolidateMemory (m1.short_term_memory ++ [mkMemoryEntry now r res])
            m1.long_term_memory).2 := rfl
    rw [h2, hspec.2 k, hlenapp, hshort, hlong]

/-- C3 witness: the amended theorem applied to the 100-entry ring `memFull`
and the record `recordT`, with the long-term conclusion read at type `"T"`. -/
theorem store_activity_result_consolidates_witness :
    (storeActivityResult "t1" (PyVal.dict recordT) memFull).short_term_memory =
      (memFull.short_term_memory ++ [mkMemoryEntry "t1" recordT resultT]).drop
        (memFull.short_term_memory.length + 1 - 50) ∧
    alistGetD (storeActivityResult "t1" (PyVal.dict recordT) memFull).long_term_memory
        "T" [] =
      alistGetD memFull.long_term_memory "T" [] ++
        ((memFull.short_term_memory ++ [mkMemoryEntry "t1" recordT resultT]).take
          (memFull.short_term_memory.length + 1 - 50)).filter
          (fun e => e.activity_type = "T") :=
  ⟨(store_activity_result_consolidates "t1" recordT resultT memFull rfl (by decide)
      (by simp [memFull])).1,
   (store_activity_result_consolidates "t1" recordT resultT memFull rfl (by decide)
      (by simp [memFull])).2 "T"⟩

/-- C8: an activity whose `execute` raises is contained at the
`execute_activity` boundary: the call returns (never propagates), the
returned result has `success = False` and the exception message as `error`,
and the newest entry of the short-term ring records the same failure. -/
theorem execute_activity_fault_contained (now name msg : String) (m : MemoryState) :
    (executeActivity now name (ExecOutcome.raised msg) m).1.success = false ∧
    (executeActivity now name (ExecOutcome.raised msg) m).1.error = some msg ∧
    (executeActivity now name (ExecOutcome.raised msg) m).2.short_term_memory.getLast? =
      some { timestamp := now, activity_type := name, success := false,
             error := some msg, data := some (Json.obj []), metadata := Json.obj [] } := by
  refine ⟨rfl, rfl, ?_⟩
  have hchat : (chatTypes name && dataTruthy (some (Json.obj []))) = false := by
    simp [dataTruthy, jsonTruthy]
  simp only [executeActivity, storeActivityResult, resultToDict, toDictData,
    Option.getD_some, hchat, Bool.false_eq_true, if_false, commitEntry]
  exact consolidateMemory_getLast _ _ _


/-! ### Concrete selector evaluations -/

theorem scenario_avail : getAvailableActivities scenarioSelector 50 = [descA] := by
  have hBc : (decide ((50:ℚ) < 100)) = true := by norm_num
  simp [getAvailableActivities, scenarioSelector, descA, descB, descC, isDisabled,
    onCooldown, List.filter, hBc]

theorem scenario_suitable : suitableActivities scenarioSelector 50 = [descA] := by
  unfold suitableActivities
  rw [scenario_avail]
  have hen : scenarioSelector.energy = 1 := rfl
  have hE2 : (decide ((0:ℚ) ≤ 1)) = true := by norm_num
  simp [checkEnergyRequirements, checkActivityRequirements, hen, descA,
    List.filter, hE2, ge_iff_le]

theorem scenario_rows : (scenarioSelector.activities).map
    (nextAvailEntryFor scenarioSelector 50) = [entryResA, entryResB, entryResC] := by
  simp [scenarioSelector, nextAvailEntryFor, descA, descB, descC, List.map,
    entryResA, entryResB, entryResC]
  norm_num [max_def]

theorem scenario_next_times : getNextAvailableTimes scenarioSelector 50 =
    [entryResA, entryResC, entryResB] := by
  unfold getNextAvailableTimes
  rw [scenario_rows]
  have h1 : (decide (entryResB.available_in_seconds ≤ entryResC.available_in_seconds))
      = false := by norm_num [entryResB, entryResC]
  have h2 : (decide (entryResA.available_in_seconds ≤ entryResC.available_in_seconds))
      = true := by norm_num [entryResA, entryResC]
  simp [sortByKey, List.foldr, insertByKey, h1, h2]

theorem solo_avail : getAvailableActivities soloSelector 5 = [soloDesc] := by
  have hc : (decide ((5:ℚ) < 1)) = false := by norm_num
  simp [getAvailableActivities, soloSelector, soloDesc, isDisabled, onCooldown,
    List.filter, hc]

theorem solo_suitable : suitableActivities soloSelector 5 = [soloDesc] := by
  unfold suitableActivities
  rw [solo_avail]
  have hen : soloSelector.energy = 1 := rfl
  have hE2 : (decide ((0:ℚ) ≤ 1)) = true := by norm_num
  simp [checkEnergyRequirements, checkActivityRequirements, hen, soloDesc,
    List.filter, hE2, ge_iff_le]

theorem soloSelector_select : selectNextActivity soloSelector 5 0 = some soloDesc := by
  simp [selectNextActivity, solo_suitable]

theorem soloSelector_last : soloSelector.lastActivityTimes soloDesc.name = some 0 := rfl

/-- Membership of a returned activity in the suitable list. -/
theorem selectNextActivity_mem (s : Selector) (now : ℚ) (r : ℕ) (a : ActivityDesc)
    (hsel : selectNextActivity s now r = some a) :
    a ∈ suitableActivities s now := by
  simp only [selectNextActivity] at hsel
  obtain ⟨hi, he⟩ := List.getElem?_eq_some.mp hsel
  exact he ▸ List.getElem_mem hi

/-! ### Claim theorems: selector and state -/

/-- C1: an activity whose cooldown timer records a last selection time `t0`
is never returned by `select_next_activity` while `now - t0 < cooldown`: it
is excluded from the available list before the weighted draw. -/
theorem select_next_respects_cooldown (s : Selector) (now t0 : ℚ) (r : ℕ)
    (a : ActivityDesc)
    (hsel : selectNextActivity s now r = some a)
    (hlast : s.lastActivityTimes a.name = some t0) :
    ¬ now - t0 < a.cooldown := by
  intro hlt
  have hmem : a ∈ getAvailableActivities s now :=
    (List.mem_filter.mp (selectNextActivity_mem s now r a hsel)).1
  have hcond := (List.mem_filter.mp hmem).2
  simp only [Bool.and_eq_true, Bool.not_eq_true'] at hcond
  have hcd := hcond.2
  rw [hlast] at hcd
  simp [onCooldown] at hcd
  exact absurd hlt (not_lt.mpr hcd)

/-- C1 witness: the theorem applied to a one-activity selector whose
cooldown (1 s, last selected at 0) has elapsed by `now = 5`. -/
theorem select_next_respects_cooldown_witness :
    selectNextActivity soloSelector 5 0 = some soloDesc ∧
    ¬ (5:ℚ) - 0 < soloDesc.cooldown :=
  ⟨soloSelector_select,
   select_next_respects_cooldown soloSelector 5 0 0 soloDesc soloSelector_select
     soloSelector_last⟩

/-- C7: `select_next_activity` never returns an activity whose energy cost
strictly exceeds the current energy — the energy check keeps exactly the
candidates whose cost is at most the current energy. -/
theorem select_next_respects_energy (s : Selector) (now : ℚ) (r : ℕ)
    (a : ActivityDesc)
    (hsel : selectNextActivity s now r = some a) :
    ¬ s.energy < a.energy_cost := by
  have hcond := (List.mem_filter.mp (selectNextActivity_mem s now r a hsel)).2
  simp only [Bool.and_eq_true] at hcond
  have he := hcond.1
  rw [checkEnergyRequirements] at he
  simp at he
  exact not_lt.mpr he

/-- C7 witness: the theorem applied to the one-activity selector with
energy 1 and cost 0. -/
theorem select_next_respects_energy_witness :
    selectNextActivity soloSelector 5 0 = some soloDesc ∧
    ¬ soloSelector.energy < soloDesc.energy_cost :=
  ⟨soloSelector_select,
   select_next_respects_energy soloSelector 5 0 soloDesc soloSelector_select⟩

/-- C5 counterexample: in the three-activity scenario the diagnostic
`get_next_available_times` does not report C as unavailable — the method
never consults the enabled flag, so disabled C is reported available now
(`available_in_seconds = 0`). -/
theorem scenario_c_reported_available :
    ¬ (∀ e ∈ getNextAvailableTimes scenarioSelector 50,
        e.activity = "C" → 0 < e.available_in_seconds) := by
  intro h
  have hmem : entryResC ∈ getNextAvailableTimes scenarioSelector 50 := by
    rw [scenario_next_times]
    simp
  have hpos := h entryResC hmem rfl
  rw [entryResC] at hpos
  norm_num at hpos

/-- C5 (amended): in the scenario — A (cooldown 0, enabled, never run),
B (cooldown 100 s, enabled, last selected 50 s ago), C (cooldown 0,
disabled), energy 1.0, zero energy costs — `select_next_activity` returns A
for every draw, and `get_next_available_times` reports A available now, C
available now (the enabled flag is not consulted there), and B available in
50 seconds, in that sorted order. -/
theorem scenario_selection_and_diagnostics :
    (∀ r : ℕ, selectNextActivity scenarioSelector 50 r = some descA) ∧
    getNextAvailableTimes scenarioSelector 50 = [entryResA, entryResC, entryResB] := by
  constructor
  · intro r
    simp [selectNextActivity, scenario_suitable, Nat.mod_one]
  · exact scenario_next_times

/-- C2: starting from an energy value in `[0, 1]`, any finite sequence of
`consume_energy` calls with non-negative amounts and `update` ticks with
non-negative elapsed time keeps the energy in `[0, 1]`. -/
theorem energy_stays_in_bounds (ops : List StateOp) (e : ℚ)
    (hops : ∀ op ∈ ops, validStateOp op) (h0 : 0 ≤ e) (h1 : e ≤ 1) :
    0 ≤ runStateOps e ops ∧ runStateOps e ops ≤ 1 := by
  induction ops generalizing e with
  | nil => exact ⟨h0, h1⟩
  | cons op rest ih =>
    have hop : validStateOp op := hops op (List.mem_cons_self op rest)
    have hrest : ∀ op2 ∈ rest, validStateOp op2 :=
      fun op2 hmem => hops op2 (List.mem_cons_of_mem op hmem)
    cases op with
    | consume amount =>
      apply ih _ hrest
      · exact le_max_left 0 _
      · have hsub : e - amount ≤ 1 := by
          have : (0:ℚ) ≤ amount := hop
          linarith
        exact max_le (by norm_num) hsub
    | tick timeDiff =>
      apply ih _ hrest
      · have hrec : (0:ℚ) ≤ timeDiff / 3600 * (1 / 10) := by
          have : (0:ℚ) ≤ timeDiff := hop
          positivity
        have : (0:ℚ) ≤ e + timeDiff / 3600 * (1 / 10) := by linarith
        exact le_min (by norm_num) this
      · exact min_le_left 1 _
    | tickIdle => exact ih _ hrest h0 h1

/-- C2 witness: the theorem applied to the sequence consume ½, tick 30 min,
idle tick, starting from energy 1. -/
theorem energy_stays_in_bounds_witness :
    0 ≤ runStateOps 1 [StateOp.consume (1/2), StateOp.tick 1800, StateOp.tickIdle] ∧
    runStateOps 1 [StateOp.consume (1/2), StateOp.tick 1800, StateOp.tickIdle] ≤ 1 :=
  energy_stays_in_bounds [StateOp.consume (1/2), StateOp.tick 1800, StateOp.tickIdle] 1
    (by intro op hop
        simp at hop
        rcases hop with h | h | h <;> subst h <;> norm_num [validStateOp])
    (by norm_num) (by norm_num)
